import Mathlib

/-!
Shallow embedding of `src/06-objects-tasks.js`: the `Rectangle` constructor,
the `getJSON` / `fromJSON` helpers, and the `SelectorBuilder` class with its
`cssSelectorBuilder` facade.

JS exceptions are modelled by returning `Option String × SelectorBuilder`:
the first component is the thrown message (`none` when no throw), the second
is the state of the mutated object when the method returns or when the throw
escapes it.  The source throws plain strings, so errors are `String`s.
-/

/-- State of a `SelectorBuilder` instance: the accumulated selector string and
the rank (`order`) most recently recorded by `updateOrder`. -/
structure SelectorBuilder where
  selector : String
  order : Nat
deriving DecidableEq

namespace SelectorBuilder

/-- `SelectorBuilder.ORDER.initial` from the source. -/
def ORDER.initial : Nat := 0

/-- `SelectorBuilder.ORDER.element` from the source. -/
def ORDER.element : Nat := 1

/-- `SelectorBuilder.ORDER.id` from the source. -/
def ORDER.id : Nat := 2

/-- `SelectorBuilder.ORDER.class` from the source. -/
def ORDER.«class» : Nat := 3

/-- `SelectorBuilder.ORDER.attribute` from the source. -/
def ORDER.attribute : Nat := 4

/-- `SelectorBuilder.ORDER.pseudoClass` from the source. -/
def ORDER.pseudoClass : Nat := 5

/-- `SelectorBuilder.ORDER.pseudoElement` from the source. -/
def ORDER.pseudoElement : Nat := 6

/-- `SelectorBuilder.wrongOrderProblem`: the string thrown on an order
violation. -/
def wrongOrderProblem : String :=
  "Selector parts should be arranged in the following order: element, id, class, attribute, pseudo-class, pseudo-element"

/-- `SelectorBuilder.uniquenessProblem`: the string thrown on a uniqueness
violation. -/
def uniquenessProblem : String :=
  "Element, id and pseudo-element should not occur more then one time inside the selector"

/-- `updateOrder(order)`: throws `uniquenessProblem` when the new rank equals
the recorded rank and is one of element, id, pseudo-element; throws
`wrongOrderProblem` when the new rank is strictly below the recorded rank;
otherwise records the new rank.  Both throws happen before the assignment
`this.order = order`, so the state returned with an error is unchanged. -/
def updateOrder (order : Nat) (s : SelectorBuilder) : Option String × SelectorBuilder :=
  if order = s.order ∧ order ∈ [ORDER.element, ORDER.id, ORDER.pseudoElement] then
    (some uniquenessProblem, s)
  else if order < s.order then
    (some wrongOrderProblem, s)
  else
    (none, { s with order := order })

/-- `element(element)`: `updateOrder` then append the bare name. -/
def element (element : String) (s : SelectorBuilder) : Option String × SelectorBuilder :=
  match updateOrder ORDER.element s with
  | (some e, s1) => (some e, s1)
  | (none, s1) => (none, { s1 with selector := s1.selector ++ element })

/-- `id(id)`: `updateOrder` then append `#id`. -/
def id (id : String) (s : SelectorBuilder) : Option String × SelectorBuilder :=
  match updateOrder ORDER.id s with
  | (some e, s1) => (some e, s1)
  | (none, s1) => (none, { s1 with selector := s1.selector ++ "#" ++ id })

/-- `class(className)`: `updateOrder` then append `.className`. -/
def «class» (className : String) (s : SelectorBuilder) : Option String × SelectorBuilder :=
  match updateOrder ORDER.«class» s with
  | (some e, s1) => (some e, s1)
  | (none, s1) => (none, { s1 with selector := s1.selector ++ "." ++ className })

/-- `attr(attribute)`: `updateOrder` then append `[attribute]`. -/
def attr («attribute» : String) (s : SelectorBuilder) : Option String × SelectorBuilder :=
  match updateOrder ORDER.attribute s with
  | (some e, s1) => (some e, s1)
  | (none, s1) => (none, { s1 with selector := s1.selector ++ "[" ++ «attribute» ++ "]" })

/-- `pseudoClass(pseudoClass)`: `updateOrder` then append `:pseudoClass`. -/
def pseudoClass (pseudoClass : String) (s : SelectorBuilder) : Option String × SelectorBuilder :=
  match updateOrder ORDER.pseudoClass s with
  | (some e, s1) => (some e, s1)
  | (none, s1) => (none, { s1 with selector := s1.selector ++ ":" ++ pseudoClass })

/-- `pseudoElement(pseudoElement)`: `updateOrder` then append `::pseudoElement`. -/
def pseudoElement (pseudoElement : String) (s : SelectorBuilder) : Option String × SelectorBuilder :=
  match updateOrder ORDER.pseudoElement s with
  | (some e, s1) => (some e, s1)
  | (none, s1) => (none, { s1 with selector := s1.selector ++ "::" ++ pseudoElement })

/-- `stringify()`: returns the accumulated string. -/
def stringify (s : SelectorBuilder) : String := s.selector

/-- `combine(selector1, combinator, selector2)`: overwrites `this.selector`
with the combined rendering; `this.order` is not touched; never throws. -/
def combine (selector1 : SelectorBuilder) (combinator : String)
    (selector2 : SelectorBuilder) (s : SelectorBuilder) : SelectorBuilder :=
  { s with selector := selector1.stringify ++ " " ++ combinator ++ " " ++ selector2.stringify }

end SelectorBuilder

/-- `new SelectorBuilder()`: empty selector, rank `initial`. -/
def newSelectorBuilder : SelectorBuilder :=
  { selector := "", order := SelectorBuilder.ORDER.initial }

namespace cssSelectorBuilder

/-- Facade `cssSelectorBuilder.element`. -/
def element (v : String) : Option String × SelectorBuilder :=
  SelectorBuilder.element v newSelectorBuilder

/-- Facade `cssSelectorBuilder.id`. -/
def id (v : String) : Option String × SelectorBuilder :=
  SelectorBuilder.id v newSelectorBuilder

/-- Facade `cssSelectorBuilder.class`. -/
def «class» (v : String) : Option String × SelectorBuilder :=
  SelectorBuilder.«class» v newSelectorBuilder

/-- Facade `cssSelectorBuilder.attr`. -/
def attr (v : String) : Option String × SelectorBuilder :=
  SelectorBuilder.attr v newSelectorBuilder

/-- Facade `cssSelectorBuilder.pseudoClass`. -/
def pseudoClass (v : String) : Option String × SelectorBuilder :=
  SelectorBuilder.pseudoClass v newSelectorBuilder

/-- Facade `cssSelectorBuilder.pseudoElement`. -/
def pseudoElement (v : String) : Option String × SelectorBuilder :=
  SelectorBuilder.pseudoElement v newSelectorBuilder

/-- Facade `cssSelectorBuilder.combine`: a fresh builder (rank `initial`)
whose selector is the combined rendering. -/
def combine (s1 : SelectorBuilder) (c : String) (s2 : SelectorBuilder) : SelectorBuilder :=
  SelectorBuilder.combine s1 c s2 newSelectorBuilder

end cssSelectorBuilder

/-- Chains a second method call after a first one, propagating a thrown
exception: in JS, `a.m1().m2()` never runs `m2` when `m1` throws. -/
def andThen (r : Option String × SelectorBuilder)
    (f : SelectorBuilder → Option String × SelectorBuilder) :
    Option String × SelectorBuilder :=
  match r with
  | (some e, s) => (some e, s)
  | (none, s) => f s

/-- The six fragment kinds of the builder. -/
inductive FragKind where
  | element
  | id
  | «class»
  | attr
  | pseudoClass
  | pseudoElement
deriving DecidableEq

/-- Rank of a fragment kind, per `SelectorBuilder.ORDER`. -/
def FragKind.rank : FragKind → Nat
  | .element => SelectorBuilder.ORDER.element
  | .id => SelectorBuilder.ORDER.id
  | .«class» => SelectorBuilder.ORDER.«class»
  | .attr => SelectorBuilder.ORDER.attribute
  | .pseudoClass => SelectorBuilder.ORDER.pseudoClass
  | .pseudoElement => SelectorBuilder.ORDER.pseudoElement

/-- A fragment operation: a kind and its string argument. -/
structure Frag where
  kind : FragKind
  arg : String
deriving DecidableEq

/-- The text a fragment appends to the selector: the name for element,
`#name` for id, `.name` for class, `[spec]` for attr, `:name` for
pseudo-class, `::name` for pseudo-element. -/
def fragText (f : Frag) : String :=
  match f.kind with
  | .element => f.arg
  | .id => "#" ++ f.arg
  | .«class» => "." ++ f.arg
  | .attr => "[" ++ f.arg ++ "]"
  | .pseudoClass => ":" ++ f.arg
  | .pseudoElement => "::" ++ f.arg

/-- Dispatch of a fragment operation, in the common shape shared by the six
source methods: `updateOrder` with the kind's rank, then append the text. -/
def applyFrag (f : Frag) (s : SelectorBuilder) : Option String × SelectorBuilder :=
  match SelectorBuilder.updateOrder f.kind.rank s with
  | (some e, s1) => (some e, s1)
  | (none, s1) => (none, { s1 with selector := s1.selector ++ fragText f })

/-- Runs a sequence of fragment operations, stopping at the first throw. -/
def runOps : SelectorBuilder → List Frag → Option String × SelectorBuilder
  | s, [] => (none, s)
  | s, f :: fs =>
    match applyFrag f s with
    | (some e, s1) => (some e, s1)
    | (none, s1) => runOps s1 fs

/-- Concatenation, in order, of the texts of a list of fragments. -/
def concatFragTexts : List Frag → String
  | [] => ""
  | f :: fs => fragText f ++ concatFragTexts fs

/-- Ranks whose fragments may occur at most once (element, id,
pseudo-element). -/
def uniqueRank (r : Nat) : Prop :=
  r ∈ [SelectorBuilder.ORDER.element, SelectorBuilder.ORDER.id,
    SelectorBuilder.ORDER.pseudoElement]

instance (r : Nat) : Decidable (uniqueRank r) := by
  unfold uniqueRank
  infer_instance

/-- Number of fragments of a given kind in a list. -/
def countKind (k : FragKind) (l : List Frag) : Nat :=
  l.countP (fun f => f.kind == k)

/-- Validity of a fragment sequence relative to a starting rank `o`: each step
strictly increases the rank, or keeps it equal when the kind is repeatable. -/
def ranksOK : Nat → List Frag → Prop
  | _, [] => True
  | o, f :: fs =>
    (o < f.kind.rank ∨ (o = f.kind.rank ∧ ¬ uniqueRank f.kind.rank)) ∧ ranksOK f.kind.rank fs

/-- A sample fragment sequence touching every kind, used as concrete input. -/
def sampleFrags : List Frag :=
  [⟨.element, "div"⟩, ⟨.id, "main"⟩, ⟨.«class», "a"⟩, ⟨.«class», "b"⟩,
    ⟨.attr, "x"⟩, ⟨.pseudoClass, "hover"⟩, ⟨.pseudoElement, "before"⟩]

/-!
The `Rectangle` constructor.  The source reads

    function Rectangle(width, height) {
      this.width = width;
      this.height = height;
      Rectangle.prototype.getArea = () => this.width * this.height;
    }

so every construction overwrites the one shared `Rectangle.prototype.getArea`
slot with an arrow function closed over the instance under construction.
Instances carry no own `getArea`; a call `r.getArea()` looks the method up on
the shared prototype, and the arrow function ignores the receiver.  The
mutable prototype slot is modelled as explicit state `RectangleProto`.
-/

/-- A rectangle instance: the two own data properties. -/
structure RectInstance where
  width : Int
  height : Int
deriving DecidableEq

/-- The shared `Rectangle.prototype`: its `getArea` slot holds the closure's
captured `this` (`none` before any construction, when the slot is absent). -/
structure RectangleProto where
  getAreaThis : Option RectInstance
deriving DecidableEq

/-- `new Rectangle(width, height)`: returns the new instance and the updated
shared prototype, whose `getArea` closure now captures this new instance. -/
def Rectangle (width height : Int) (proto : RectangleProto) :
    RectInstance × RectangleProto :=
  ({ width := width, height := height },
   { getAreaThis := some { width := width, height := height } })

/-- `r.getArea()`: looked up on the shared prototype; the arrow function
multiplies the captured instance's fields and ignores the receiver `self`.
Returns `none` when the slot was never assigned. -/
def RectInstance.getArea (self : RectInstance) (proto : RectangleProto) : Option Int :=
  match proto.getAreaThis with
  | some captured => some (captured.width * captured.height)
  | none => none

/-!
`getJSON` / `fromJSON`.  The source delegates to `JSON.stringify` and
`JSON.parse`; the claims concern simple flat objects such as `{radius: 10}`,
so the JSON functions are embedded for flat objects with string keys and
non-negative integer values, kept as a key-value list in the object's own
enumeration order.  `JSON.stringify` renders such an object without spaces
and, when no key needs escaping, without escapes; `JSON.parse` inverts it.
-/

/-- Decimal digits of `n`, most significant first, with structural fuel
(`natDigits` supplies enough). -/
def natDigitsGo : Nat → Nat → List Char
  | 0, _ => []
  | fuel + 1, n =>
    if n < 10 then [Nat.digitChar n]
    else natDigitsGo fuel (n / 10) ++ [Nat.digitChar (n % 10)]

/-- Decimal representation of `n` as characters. -/
def natDigits (n : Nat) : List Char := natDigitsGo (n + 1) n

/-- Value of a string of decimal digits. -/
def digitsToNat (l : List Char) : Nat :=
  l.foldl (fun a c => a * 10 + (c.toNat - 48)) 0

/-- Characters of the rendered entries of a flat object, up to and including
the closing brace: `"k":v` pairs separated by commas. -/
def entriesChars : List (String × Nat) → List Char
  | [] => ['\x7d']
  | (k, v) :: rest =>
    '"' :: (k.data ++ '"' :: ':' :: (natDigits v ++
      match rest with
      | [] => ['\x7d']
      | _ => ',' :: entriesChars rest))

/-- `getJSON(obj) = JSON.stringify(obj)` for a flat object: `\x7b"k":v,...\x7d`
with no spaces. -/
def getJSON (obj : List (String × Nat)) : String :=
  String.mk ('\x7b' :: entriesChars obj)

/-- Parses the entries of a flat JSON object after the opening brace: a quoted
key, a colon, digits, then a comma and more entries or the closing brace
ending the input.  Fuel is structural; callers pass the input length. -/
def parseEntriesGo : Nat → List Char → Option (List (String × Nat))
  | 0, _ => none
  | fuel + 1, cs =>
    match cs with
    | [] => none
    | c0 :: rest =>
      if c0 = '"' then
        match rest.dropWhile (fun c => c != '"') with
        | [] => none
        | _ :: rest1 =>
          match rest1 with
          | [] => none
          | c1 :: rest2 =>
            if c1 = ':' then
              match rest2.takeWhile Char.isDigit with
              | [] => none
              | _ :: _ =>
                match rest2.dropWhile Char.isDigit with
                | [] => none
                | c2 :: rest3 =>
                  if c2 = ',' then
                    match parseEntriesGo fuel rest3 with
                    | some tail =>
                      some ((String.mk (rest.takeWhile (fun c => c != '"')),
                        digitsToNat (rest2.takeWhile Char.isDigit)) :: tail)
                    | none => none
                  else if c2 = '\x7d' ∧ rest3 = [] then
                    some [(String.mk (rest.takeWhile (fun c => c != '"')),
                      digitsToNat (rest2.takeWhile Char.isDigit))]
                  else none
            else none
      else none

/-- `JSON.parse` for a flat object of the shape `getJSON` produces: `\x7b\x7d`
gives the empty object, otherwise the entries are parsed after the opening
brace.  Anything else is a parse error (`none`). -/
def JSONparse (s : String) : Option (List (String × Nat)) :=
  match s.data with
  | ['\x7b', '\x7d'] => some []
  | '\x7b' :: rest => parseEntriesGo rest.length rest
  | _ => none

/-- `fromJSON(proto, json)`: parse, take `Object.values` of the result in
enumeration order, and call `proto.constructor` with them positionally.  The
constructor of the prototype is modelled by its ordered field-name list
`proto`: applied positionally it assigns `proto[i] := values[i]`. -/
def fromJSON (proto : List String) (json : String) : Option (List (String × Nat)) :=
  match JSONparse json with
  | some obj => some (List.zip proto (obj.map Prod.snd))
  | none => none

/-- A key `JSON.stringify` renders without escapes and `parseEntriesGo` can
read back: no quote, no backslash, no control character. -/
def jsonSafeKey (k : String) : Prop :=
  ∀ c ∈ k.data, c ≠ '"' ∧ c ≠ '\\' ∧ 32 ≤ c.toNat

instance (k : String) : Decidable (jsonSafeKey k) := by
  unfold jsonSafeKey
  infer_instance

/-!
Lemmas about `updateOrder`, the fragment operations, and runs.
-/

lemma updateOrder_dup (ord : Nat) (s : SelectorBuilder) (h1 : ord = s.order)
    (h2 : uniqueRank ord) :
    SelectorBuilder.updateOrder ord s = (some SelectorBuilder.uniquenessProblem, s) := by
  unfold SelectorBuilder.updateOrder
  rw [if_pos ⟨h1, h2⟩]

lemma updateOrder_lt (ord : Nat) (s : SelectorBuilder) (h : ord < s.order) :
    SelectorBuilder.updateOrder ord s = (some SelectorBuilder.wrongOrderProblem, s) := by
  unfold SelectorBuilder.updateOrder
  rw [if_neg (by rintro ⟨heq, _⟩; omega), if_pos h]

lemma updateOrder_ok (ord : Nat) (s : SelectorBuilder) (hle : s.order ≤ ord)
    (hnd : ¬(ord = s.order ∧ uniqueRank ord)) :
    SelectorBuilder.updateOrder ord s = (none, { s with order := ord }) := by
  unfold uniqueRank at hnd
  unfold SelectorBuilder.updateOrder
  rw [if_neg hnd, if_neg (by omega)]

lemma applyFrag_dup (f : Frag) (s : SelectorBuilder) (h1 : f.kind.rank = s.order)
    (h2 : uniqueRank f.kind.rank) :
    applyFrag f s = (some SelectorBuilder.uniquenessProblem, s) := by
  unfold applyFrag
  rw [updateOrder_dup _ _ h1 h2]

lemma applyFrag_lt (f : Frag) (s : SelectorBuilder) (h : f.kind.rank < s.order) :
    applyFrag f s = (some SelectorBuilder.wrongOrderProblem, s) := by
  unfold applyFrag
  rw [updateOrder_lt _ _ h]

lemma applyFrag_ok (f : Frag) (s : SelectorBuilder) (hle : s.order ≤ f.kind.rank)
    (hnd : ¬(f.kind.rank = s.order ∧ uniqueRank f.kind.rank)) :
    applyFrag f s = (none, { selector := s.selector ++ fragText f, order := f.kind.rank }) := by
  unfold applyFrag
  rw [updateOrder_ok _ _ hle hnd]

lemma runOps_cons_err (f : Frag) (fs : List Frag) (s s1 : SelectorBuilder) (e : String)
    (h : applyFrag f s = (some e, s1)) : runOps s (f :: fs) = (some e, s1) := by
  rw [runOps, h]

lemma runOps_cons_ok (f : Frag) (fs : List Frag) (s s1 : SelectorBuilder)
    (h : applyFrag f s = (none, s1)) : runOps s (f :: fs) = runOps s1 fs := by
  rw [runOps, h]

lemma fragRank_pos (k : FragKind) : 1 ≤ k.rank := by
  cases k <;> decide

lemma fragRank_inj (k1 k2 : FragKind) (h : k1.rank = k2.rank) : k1 = k2 := by
  cases k1 <;> cases k2 <;> first | rfl | (exfalso; revert h; decide)

lemma runOps_ok (l : List Frag) : ∀ s : SelectorBuilder, ranksOK s.order l →
    (runOps s l).1 = none ∧ (runOps s l).2.selector = s.selector ++ concatFragTexts l := by
  induction l with
  | nil =>
    intro s _
    simp [runOps, concatFragTexts, String.append_empty]
  | cons f fs ih =>
    intro s h
    obtain ⟨hstep, hrest⟩ := h
    have hle : s.order ≤ f.kind.rank := by
      rcases hstep with h1 | ⟨h1, _⟩ <;> omega
    have hnd : ¬(f.kind.rank = s.order ∧ uniqueRank f.kind.rank) := by
      rintro ⟨heq, hu⟩
      rcases hstep with h1 | ⟨h1, hnu⟩
      · omega
      · exact hnu hu
    rw [runOps_cons_ok f fs s _ (applyFrag_ok f s hle hnd)]
    have hrec := ih { selector := s.selector ++ fragText f, order := f.kind.rank } hrest
    obtain ⟨h1, h2⟩ := hrec
    refine ⟨h1, ?_⟩
    rw [h2]
    show s.selector ++ fragText f ++ concatFragTexts fs
      = s.selector ++ (fragText f ++ concatFragTexts fs)
    rw [String.append_assoc]

lemma countKind_cons (k : FragKind) (f : Frag) (fs : List Frag) :
    countKind k (f :: fs) = countKind k fs + (if f.kind = k then 1 else 0) := by
  simp [countKind, List.countP_cons]

lemma applyFrag_none_inv (f : Frag) (s s1 : SelectorBuilder) (h : applyFrag f s = (none, s1)) :
    s.order ≤ f.kind.rank ∧ ¬(f.kind.rank = s.order ∧ uniqueRank f.kind.rank) ∧
      s1 = { selector := s.selector ++ fragText f, order := f.kind.rank } := by
  by_cases h1 : f.kind.rank = s.order ∧ uniqueRank f.kind.rank
  · rw [applyFrag_dup f s h1.1 h1.2] at h
    simp at h
  · by_cases h2 : f.kind.rank < s.order
    · rw [applyFrag_lt f s h2] at h
      simp at h
    · have hle : s.order ≤ f.kind.rank := by omega
      rw [applyFrag_ok f s hle h1] at h
      exact ⟨hle, h1, (congrArg Prod.snd h).symm⟩

lemma applyFrag_fst_wrong_iff (f : Frag) (s : SelectorBuilder) :
    (applyFrag f s).1 = some SelectorBuilder.wrongOrderProblem ↔ f.kind.rank < s.order := by
  constructor
  · intro h
    by_contra hnlt
    have hle : s.order ≤ f.kind.rank := by omega
    by_cases hd : f.kind.rank = s.order ∧ uniqueRank f.kind.rank
    · rw [applyFrag_dup f s hd.1 hd.2] at h
      exact (by decide : SelectorBuilder.uniquenessProblem ≠ SelectorBuilder.wrongOrderProblem)
        (Option.some.inj h)
    · rw [applyFrag_ok f s hle hd] at h
      simp at h
  · intro h
    rw [applyFrag_lt f s h]

lemma applyFrag_fst_uniq_iff (f : Frag) (s : SelectorBuilder) :
    (applyFrag f s).1 = some SelectorBuilder.uniquenessProblem ↔
      (f.kind.rank = s.order ∧ uniqueRank f.kind.rank) := by
  constructor
  · intro h
    by_cases hd : f.kind.rank = s.order ∧ uniqueRank f.kind.rank
    · exact hd
    · by_cases h2 : f.kind.rank < s.order
      · rw [applyFrag_lt f s h2] at h
        exact absurd (Option.some.inj h)
          (by decide : SelectorBuilder.wrongOrderProblem ≠ SelectorBuilder.uniquenessProblem)
      · rw [applyFrag_ok f s (by omega) hd] at h
        simp at h
  · intro hd
    rw [applyFrag_dup f s hd.1 hd.2]

lemma ranksOK_of (l : List Frag) : ∀ o : Nat,
    (∀ f ∈ l, o ≤ f.kind.rank) →
    l.Pairwise (fun f g => f.kind.rank ≤ g.kind.rank) →
    (∀ k : FragKind, uniqueRank k.rank → countKind k l + (if k.rank = o then 1 else 0) ≤ 1) →
    ranksOK o l := by
  induction l with
  | nil =>
    intro o _ _ _
    trivial
  | cons f fs ih =>
    intro o hall hpw hcnt
    rw [List.pairwise_cons] at hpw
    obtain ⟨hpw1, hpw2⟩ := hpw
    have hof : o ≤ f.kind.rank := hall f (List.mem_cons_self f fs)
    constructor
    · by_cases ho : o = f.kind.rank
      · right
        refine ⟨ho, fun hu => ?_⟩
        have hc := hcnt f.kind hu
        rw [countKind_cons, if_pos rfl, if_pos ho.symm] at hc
        omega
      · left
        omega
    · refine ih f.kind.rank hpw1 hpw2 (fun k hu => ?_)
      have hc := hcnt k hu
      rw [countKind_cons] at hc
      by_cases hk : k.rank = f.kind.rank
      · have hfk : f.kind = k := (fragRank_inj k f.kind hk).symm
        rw [if_pos hfk] at hc
        rw [if_pos hk]
        omega
      · rw [if_neg hk]
        by_cases hfk : f.kind = k
        · exact absurd (congrArg FragKind.rank hfk).symm hk
        · rw [if_neg hfk] at hc
          split at hc <;> omega

lemma runOps_unique_count (l : List Frag) : ∀ (s : SelectorBuilder) (k : FragKind),
    uniqueRank k.rank → (runOps s l).1 = none →
    countKind k l ≤ (if k.rank ≤ s.order then 0 else 1) := by
  induction l with
  | nil =>
    intro s k _ _
    simp [countKind]
  | cons f fs ih =>
    intro s k hu hrun
    rcases hp : applyFrag f s with ⟨o, s1⟩
    cases o with
    | some e =>
      rw [runOps_cons_err f fs s s1 e hp] at hrun
      simp at hrun
    | none =>
      obtain ⟨hle, hnd, rfl⟩ := applyFrag_none_inv f s s1 hp
      rw [runOps_cons_ok f fs s _ hp] at hrun
      have hcnt := ih _ k hu hrun
      dsimp only at hcnt
      rw [countKind_cons]
      by_cases hfk : f.kind = k
      · have hrk : k.rank = f.kind.rank := by rw [hfk]
        rw [if_pos hfk]
        have hns : ¬(k.rank ≤ s.order) := by
          intro hks
          exact hnd ⟨by omega, by rwa [← hrk]⟩
        rw [if_neg hns]
        rw [if_pos (le_of_eq hrk)] at hcnt
        omega
      · rw [if_neg hfk]
        split at hcnt <;> split <;> omega

lemma classRun_no_dup (args : List String) : ∀ s : SelectorBuilder,
    (runOps s (args.map (fun a => ⟨.«class», a⟩))).1 ≠
      some SelectorBuilder.uniquenessProblem := by
  induction args with
  | nil =>
    intro s
    simp [runOps]
  | cons a as ih =>
    intro s
    by_cases h : (⟨.«class», a⟩ : Frag).kind.rank < s.order
    · rw [List.map_cons, runOps_cons_err _ _ _ _ _ (applyFrag_lt _ s h)]
      intro hc
      exact (by decide : SelectorBuilder.wrongOrderProblem ≠ SelectorBuilder.uniquenessProblem)
        (Option.some.inj hc)
    · have hle : s.order ≤ (⟨.«class», a⟩ : Frag).kind.rank := by omega
      have hnd : ¬((⟨.«class», a⟩ : Frag).kind.rank = s.order ∧
          uniqueRank (⟨.«class», a⟩ : Frag).kind.rank) := by
        rintro ⟨_, hu⟩
        have hu3 : uniqueRank (FragKind.«class»).rank := hu
        exact absurd hu3 (by decide)
      rw [List.map_cons, runOps_cons_ok _ _ _ _ (applyFrag_ok _ s hle hnd)]
      exact ih _

/-!
`applyFrag` agrees with each of the six source methods.
-/

lemma applyFrag_element (v : String) (s : SelectorBuilder) :
    applyFrag ⟨.element, v⟩ s = SelectorBuilder.element v s := by
  rcases h : SelectorBuilder.updateOrder SelectorBuilder.ORDER.element s with ⟨o, s1⟩
  cases o <;> simp [applyFrag, SelectorBuilder.element, FragKind.rank, fragText, h]

lemma applyFrag_id (v : String) (s : SelectorBuilder) :
    applyFrag ⟨.id, v⟩ s = SelectorBuilder.id v s := by
  rcases h : SelectorBuilder.updateOrder SelectorBuilder.ORDER.id s with ⟨o, s1⟩
  cases o <;> simp [applyFrag, SelectorBuilder.id, FragKind.rank, fragText, h,
    String.append_assoc]

lemma applyFrag_class (v : String) (s : SelectorBuilder) :
    applyFrag ⟨.«class», v⟩ s = SelectorBuilder.«class» v s := by
  rcases h : SelectorBuilder.updateOrder SelectorBuilder.ORDER.«class» s with ⟨o, s1⟩
  cases o <;> simp [applyFrag, SelectorBuilder.«class», FragKind.rank, fragText, h,
    String.append_assoc]

lemma applyFrag_attr (v : String) (s : SelectorBuilder) :
    applyFrag ⟨.attr, v⟩ s = SelectorBuilder.attr v s := by
  rcases h : SelectorBuilder.updateOrder SelectorBuilder.ORDER.attribute s with ⟨o, s1⟩
  cases o <;> simp [applyFrag, SelectorBuilder.attr, FragKind.rank, fragText, h,
    String.append_assoc]

lemma applyFrag_pseudoClass (v : String) (s : SelectorBuilder) :
    applyFrag ⟨.pseudoClass, v⟩ s = SelectorBuilder.pseudoClass v s := by
  rcases h : SelectorBuilder.updateOrder SelectorBuilder.ORDER.pseudoClass s with ⟨o, s1⟩
  cases o <;> simp [applyFrag, SelectorBuilder.pseudoClass, FragKind.rank, fragText, h,
    String.append_assoc]

lemma applyFrag_pseudoElement (v : String) (s : SelectorBuilder) :
    applyFrag ⟨.pseudoElement, v⟩ s = SelectorBuilder.pseudoElement v s := by
  rcases h : SelectorBuilder.updateOrder SelectorBuilder.ORDER.pseudoElement s with ⟨o, s1⟩
  cases o <;> simp [applyFrag, SelectorBuilder.pseudoElement, FragKind.rank, fragText, h,
    String.append_assoc]

/-!
Lemmas for the JSON embedding: decimal digits, scanning, and the parse of a
rendered flat object.
-/

lemma digitChar_isDigit (m : Nat) (h : m < 10) : (Nat.digitChar m).isDigit = true := by
  interval_cases m <;> decide

lemma digitChar_val (m : Nat) (h : m < 10) : (Nat.digitChar m).toNat - 48 = m := by
  interval_cases m <;> decide

lemma natDigitsGo_spec (fuel : Nat) : ∀ n acc, n < fuel →
    natDigitsGo fuel n ≠ [] ∧
    (∀ c ∈ natDigitsGo fuel n, c.isDigit = true) ∧
    List.foldl (fun a c => a * 10 + (c.toNat - 48)) acc (natDigitsGo fuel n) =
      acc * 10 ^ (natDigitsGo fuel n).length + n := by
  induction fuel with
  | zero => intro n acc h; omega
  | succ fuel ih =>
    intro n acc h
    by_cases h10 : n < 10
    · rw [natDigitsGo, if_pos h10]
      refine ⟨by simp, ?_, ?_⟩
      · intro c hc
        rw [List.mem_singleton] at hc
        subst hc
        exact digitChar_isDigit n h10
      · simp [List.foldl, digitChar_val n h10]
    · rw [natDigitsGo, if_neg h10]
      have hlt : n / 10 < fuel := by omega
      obtain ⟨hne, hdig, hfold⟩ := ih (n / 10) acc hlt
      refine ⟨by simp, ?_, ?_⟩
      · intro c hc
        rw [List.mem_append] at hc
        rcases hc with hc | hc
        · exact hdig c hc
        · rw [List.mem_singleton] at hc
          subst hc
          exact digitChar_isDigit (n % 10) (Nat.mod_lt _ (by norm_num))
      · rw [List.foldl_append, hfold]
        simp only [List.foldl]
        rw [digitChar_val (n % 10) (Nat.mod_lt _ (by norm_num))]
        rw [List.length_append, List.length_singleton, pow_succ]
        have hexp : (acc * 10 ^ (natDigitsGo fuel (n / 10)).length + n / 10) * 10
            = acc * (10 ^ (natDigitsGo fuel (n / 10)).length * 10) + n / 10 * 10 := by
          ring
        rw [hexp, Nat.add_assoc]
        congr 1
        omega

lemma natDigits_ne_nil (n : Nat) : natDigits n ≠ [] :=
  (natDigitsGo_spec (n + 1) n 0 (by omega)).1

lemma natDigits_isDigit (n : Nat) : ∀ c ∈ natDigits n, c.isDigit = true :=
  (natDigitsGo_spec (n + 1) n 0 (by omega)).2.1

lemma digitsToNat_natDigits (n : Nat) : digitsToNat (natDigits n) = n := by
  have h := (natDigitsGo_spec (n + 1) n 0 (by omega)).2.2
  unfold digitsToNat natDigits
  rw [h]
  ring

lemma takeWhile_append_stop {α} (p : α → Bool) (l1 l2 : List α) (c : α)
    (h : ∀ x ∈ l1, p x = true) (hc : p c = false) :
    (l1 ++ c :: l2).takeWhile p = l1 := by
  induction l1 with
  | nil => simp [List.takeWhile_cons, hc]
  | cons a l ih =>
    have ha := h a (List.mem_cons_self a l)
    simp [List.takeWhile_cons, ha, ih (fun x hx => h x (List.mem_cons_of_mem a hx))]

lemma dropWhile_append_stop {α} (p : α → Bool) (l1 l2 : List α) (c : α)
    (h : ∀ x ∈ l1, p x = true) (hc : p c = false) :
    (l1 ++ c :: l2).dropWhile p = c :: l2 := by
  induction l1 with
  | nil => simp [List.dropWhile_cons, hc]
  | cons a l ih =>
    have ha := h a (List.mem_cons_self a l)
    simp [List.dropWhile_cons, ha, ih (fun x hx => h x (List.mem_cons_of_mem a hx))]

lemma safeKey_bne (k : String) (hk : jsonSafeKey k) : ∀ c ∈ k.data, (c != '"') = true := by
  intro c hc
  have h1 := (hk c hc).1
  simpa using h1

lemma parseEntriesGo_entry (fuel : Nat) (key : List Char)
    (hkey : ∀ c ∈ key, (c != '"') = true) (ds : List Char) (hds : ds ≠ [])
    (hdig : ∀ c ∈ ds, c.isDigit = true) (c2 : Char) (hc2 : c2.isDigit = false)
    (rest3 : List Char) :
    parseEntriesGo (fuel + 1) ('"' :: (key ++ '"' :: ':' :: (ds ++ c2 :: rest3))) =
      (if c2 = ',' then
        match parseEntriesGo fuel rest3 with
        | some tail => some ((String.mk key, digitsToNat ds) :: tail)
        | none => none
      else if c2 = '\x7d' ∧ rest3 = [] then
        some [(String.mk key, digitsToNat ds)]
      else none) := by
  obtain ⟨d, ds2, rfl⟩ := List.exists_cons_of_ne_nil hds
  rw [parseEntriesGo]
  rw [if_pos rfl]
  rw [dropWhile_append_stop _ key _ '"' hkey (by decide)]
  dsimp only
  rw [if_pos rfl]
  rw [takeWhile_append_stop Char.isDigit (d :: ds2) _ c2 hdig hc2,
    dropWhile_append_stop Char.isDigit (d :: ds2) _ c2 hdig hc2,
    takeWhile_append_stop _ key _ '"' hkey (by decide)]

lemma parseEntriesGo_entriesChars (obj : List (String × Nat)) : ∀ fuel : Nat,
    obj ≠ [] → (∀ kv ∈ obj, jsonSafeKey kv.1) → obj.length ≤ fuel →
    parseEntriesGo fuel (entriesChars obj) = some obj := by
  induction obj with
  | nil =>
    intro fuel h _ _
    exact absurd rfl h
  | cons kv rest ih =>
    obtain ⟨k, v⟩ := kv
    intro fuel _ hsafe hlen
    cases fuel with
    | zero => simp at hlen
    | succ fuel =>
      have hk : jsonSafeKey k := hsafe (k, v) (List.mem_cons_self _ _)
      have hkb := safeKey_bne k hk
      have hds := natDigits_ne_nil v
      have hdig := natDigits_isDigit v
      cases rest with
      | nil =>
        have hec : entriesChars [(k, v)] =
            '"' :: (k.data ++ '"' :: ':' :: (natDigits v ++ '\x7d' :: [])) := rfl
        rw [hec,
          parseEntriesGo_entry fuel k.data hkb (natDigits v) hds hdig '\x7d' (by decide) []]
        rw [if_neg (by decide), if_pos ⟨rfl, rfl⟩, digitsToNat_natDigits]
      | cons r rs =>
        have hec : entriesChars ((k, v) :: r :: rs) =
            '"' :: (k.data ++ '"' :: ':' :: (natDigits v ++ ',' :: entriesChars (r :: rs))) := rfl
        rw [hec,
          parseEntriesGo_entry fuel k.data hkb (natDigits v) hds hdig ',' (by decide) _]
        rw [if_pos rfl]
        rw [ih fuel (by simp) (fun kv2 hkv2 => hsafe kv2 (List.mem_cons_of_mem _ hkv2))
          (by simp at hlen ⊢; omega)]
        rw [digitsToNat_natDigits]

lemma entriesChars_length (obj : List (String × Nat)) :
    obj.length ≤ (entriesChars obj).length := by
  induction obj with
  | nil => simp [entriesChars]
  | cons kv rest ih =>
    obtain ⟨k, v⟩ := kv
    cases rest with
    | nil => simp [entriesChars]
    | cons r rs =>
      have hec : entriesChars ((k, v) :: r :: rs) =
          '"' :: (k.data ++ '"' :: ':' :: (natDigits v ++ ',' :: entriesChars (r :: rs))) := rfl
      rw [hec]
      simp only [List.length_cons, List.length_append] at *
      omega

lemma JSONparse_getJSON (obj : List (String × Nat))
    (hkeys : ∀ kv ∈ obj, jsonSafeKey kv.1) :
    JSONparse (getJSON obj) = some obj := by
  cases obj with
  | nil => rfl
  | cons kv rest =>
    obtain ⟨k, v⟩ := kv
    obtain ⟨L, hL⟩ : ∃ L, entriesChars ((k, v) :: rest) = '"' :: L := ⟨_, rfl⟩
    have hshape : JSONparse (getJSON ((k, v) :: rest)) =
        parseEntriesGo (entriesChars ((k, v) :: rest)).length
          (entriesChars ((k, v) :: rest)) := by
      show JSONparse (String.mk ('\x7b' :: entriesChars ((k, v) :: rest))) = _
      rw [hL]
      rfl
    rw [hshape]
    exact parseEntriesGo_entriesChars ((k, v) :: rest) _ (by simp) hkeys
      (entriesChars_length _)

lemma zip_map_fst_snd {α β : Type} (l : List (α × β)) :
    List.zip (l.map Prod.fst) (l.map Prod.snd) = l := by
  induction l with
  | nil => rfl
  | cons a l ih =>
    obtain ⟨x, y⟩ := a
    simp [List.zip_cons_cons, ih]

/-- C1: for every fragment sequence whose ranks are non-decreasing and in
which element, id and pseudo-element each occur at most once, the build raises
no error and stringify() returns the concatenation, in append order, of the
fragment texts. -/
theorem C1_valid_sequence_builds (l : List Frag)
    (hmono : l.Pairwise (fun f g => f.kind.rank ≤ g.kind.rank))
    (hel : countKind .element l ≤ 1) (hid : countKind .id l ≤ 1)
    (hpe : countKind .pseudoElement l ≤ 1) :
    (runOps newSelectorBuilder l).1 = none ∧
    (runOps newSelectorBuilder l).2.stringify = concatFragTexts l := by
  have hranks : ranksOK newSelectorBuilder.order l := by
    apply ranksOK_of l newSelectorBuilder.order
    · intro f _
      exact Nat.zero_le _
    · exact hmono
    · intro k hu
      rw [if_neg ?side]
      case side =>
        have := fragRank_pos k
        intro hk
        have hk0 : k.rank = 0 := hk
        omega
      cases k with
      | element => exact hel
      | id => exact hid
      | pseudoElement => exact hpe
      | «class» => exact absurd hu (by decide)
      | attr => exact absurd hu (by decide)
      | pseudoClass => exact absurd hu (by decide)
  have h := runOps_ok l newSelectorBuilder hranks
  refine ⟨h.1, ?_⟩
  unfold SelectorBuilder.stringify
  rw [h.2]
  show "" ++ concatFragTexts l = concatFragTexts l
  rfl

/-- Witness for C1 at a concrete sequence touching every fragment kind. -/
theorem C1_valid_sequence_builds_witness :
    (runOps newSelectorBuilder sampleFrags).1 = none ∧
    (runOps newSelectorBuilder sampleFrags).2.stringify = concatFragTexts sampleFrags :=
  C1_valid_sequence_builds sampleFrags (by decide) (by decide) (by decide) (by decide)

/-- C2: a fragment operation raises the order error exactly when the new
fragment's rank is strictly below the recorded rank; the error is the fixed
message naming the required order; in particular class after attr raises it. -/
theorem C2_order_violation_iff :
    (∀ (f : Frag) (s : SelectorBuilder),
        (applyFrag f s).1 = some SelectorBuilder.wrongOrderProblem ↔ f.kind.rank < s.order) ∧
    SelectorBuilder.wrongOrderProblem =
      "Selector parts should be arranged in the following order: element, id, class, attribute, pseudo-class, pseudo-element" ∧
    (andThen (cssSelectorBuilder.attr "title") (SelectorBuilder.«class» "row")).1 =
      some SelectorBuilder.wrongOrderProblem :=
  ⟨applyFrag_fst_wrong_iff, rfl, rfl⟩

/-- C3 counterexample: a second element fragment appended after an id fragment
is a second fragment of an already-recorded kind, yet the error raised is the
order error, not the duplicate error. -/
theorem C3_counterexample :
    (andThen (andThen (cssSelectorBuilder.element "a") (SelectorBuilder.id "b"))
        (SelectorBuilder.element "c")).1 = some SelectorBuilder.wrongOrderProblem ∧
    SelectorBuilder.wrongOrderProblem ≠ SelectorBuilder.uniquenessProblem :=
  ⟨rfl, by decide⟩

/-- C3 amended: the duplicate error is raised exactly when the new fragment is
element, id or pseudo-element and its rank equals the currently recorded rank;
id directly after id raises it; and no successful build contains two element,
two id or two pseudo-element fragments. -/
theorem C3_amended_duplicate_detection :
    (∀ (f : Frag) (s : SelectorBuilder),
        (applyFrag f s).1 = some SelectorBuilder.uniquenessProblem ↔
          (f.kind.rank = s.order ∧ uniqueRank f.kind.rank)) ∧
    (andThen (cssSelectorBuilder.id "a") (SelectorBuilder.id "b")).1 =
      some SelectorBuilder.uniquenessProblem ∧
    (∀ l : List Frag, (runOps newSelectorBuilder l).1 = none →
        countKind .element l ≤ 1 ∧ countKind .id l ≤ 1 ∧ countKind .pseudoElement l ≤ 1) := by
  refine ⟨applyFrag_fst_uniq_iff, rfl, fun l h => ⟨?_, ?_, ?_⟩⟩
  · have hc := runOps_unique_count l newSelectorBuilder .element (by decide) h
    rwa [if_neg (by decide)] at hc
  · have hc := runOps_unique_count l newSelectorBuilder .id (by decide) h
    rwa [if_neg (by decide)] at hc
  · have hc := runOps_unique_count l newSelectorBuilder .pseudoElement (by decide) h
    rwa [if_neg (by decide)] at hc

/-- C4: the public combine never fails and renders left, a space, the token, a
space, then right; in particular div#main and table#data joined by + render as
div#main + table#data. -/
theorem C4_combine_renders :
    (∀ (s1 : SelectorBuilder) (c : String) (s2 : SelectorBuilder),
        (cssSelectorBuilder.combine s1 c s2).stringify =
          s1.stringify ++ " " ++ c ++ " " ++ s2.stringify) ∧
    (cssSelectorBuilder.combine
        (andThen (cssSelectorBuilder.element "div") (SelectorBuilder.id "main")).2 "+"
        (andThen (cssSelectorBuilder.element "table") (SelectorBuilder.id "data")).2).stringify =
      "div#main + table#data" :=
  ⟨fun _ _ _ => rfl, rfl⟩

/-- C5: any run of consecutive class fragments never raises the duplicate
error, from any state; and id, class, class renders #main.container.editable. -/
theorem C5_class_repeatable :
    (∀ (args : List String) (s : SelectorBuilder),
        (runOps s (args.map (fun a => ⟨.«class», a⟩))).1 ≠
          some SelectorBuilder.uniquenessProblem) ∧
    (andThen (andThen (cssSelectorBuilder.id "main") (SelectorBuilder.«class» "container"))
        (SelectorBuilder.«class» "editable")).1 = none ∧
    (andThen (andThen (cssSelectorBuilder.id "main") (SelectorBuilder.«class» "container"))
        (SelectorBuilder.«class» "editable")).2.stringify = "#main.container.editable" :=
  ⟨classRun_no_dup, rfl, rfl⟩

/-- C6: the selector the public combine returns records rank initial, and any
fragment kind can be appended to it at once without any error. -/
theorem C6_combine_resets_constraints :
    (∀ (s1 : SelectorBuilder) (c : String) (s2 : SelectorBuilder),
        (cssSelectorBuilder.combine s1 c s2).order = SelectorBuilder.ORDER.initial) ∧
    (∀ (s1 : SelectorBuilder) (c : String) (s2 : SelectorBuilder) (f : Frag),
        (applyFrag f (cssSelectorBuilder.combine s1 c s2)).1 = none) := by
  refine ⟨fun _ _ _ => rfl, fun s1 c s2 f => ?_⟩
  have h0 : (cssSelectorBuilder.combine s1 c s2).order = 0 := rfl
  have hr := fragRank_pos f.kind
  have hle : (cssSelectorBuilder.combine s1 c s2).order ≤ f.kind.rank := by omega
  have hnd : ¬(f.kind.rank = (cssSelectorBuilder.combine s1 c s2).order ∧
      uniqueRank f.kind.rank) := by
    rintro ⟨heq, _⟩
    omega
  rw [applyFrag_ok f _ hle hnd]

/-- C7: serializing a simple flat object with getJSON and rebuilding it with
fromJSON through a constructor that takes the fields positionally in the
object's own enumeration order gives back an object with the same fields. -/
theorem C7_json_round_trip (obj : List (String × Nat))
    (hkeys : ∀ kv ∈ obj, jsonSafeKey kv.1) :
    fromJSON (obj.map Prod.fst) (getJSON obj) = some obj := by
  unfold fromJSON
  rw [JSONparse_getJSON obj hkeys]
  simp [zip_map_fst_snd]

/-- Witness for C7 at the object with one field radius = 10. -/
theorem C7_json_round_trip_witness :
    fromJSON ["radius"] (getJSON [("radius", 10)]) = some [("radius", 10)] :=
  C7_json_round_trip [("radius", 10)] (by decide)

/-- C8: a fragment operation that raises either error leaves the selector
string and the recorded rank exactly as they were. -/
theorem C8_failed_append_preserves_state (f : Frag) (s : SelectorBuilder) (e : String)
    (h : (applyFrag f s).1 = some e) : (applyFrag f s).2 = s := by
  by_cases hd : f.kind.rank = s.order ∧ uniqueRank f.kind.rank
  · rw [applyFrag_dup f s hd.1 hd.2]
  · by_cases hlt : f.kind.rank < s.order
    · rw [applyFrag_lt f s hlt]
    · rw [applyFrag_ok f s (by omega) hd] at h
      simp at h

/-- Witness for C8: class after attr fails and the state is untouched. -/
theorem C8_failed_append_preserves_state_witness :
    (applyFrag ⟨.«class», "b"⟩ { selector := "[a]", order := 4 }).2 =
      { selector := "[a]", order := 4 } :=
  C8_failed_append_preserves_state ⟨.«class», "b"⟩ { selector := "[a]", order := 4 }
    SelectorBuilder.wrongOrderProblem rfl

/-- C9: constructing a rectangle reassigns the shared prototype getArea to a
closure over the new instance, so after two constructions the first
rectangle's getArea returns the second rectangle's area. -/
theorem C9_rectangle_prototype_capture :
    (∀ (w1 h1 w2 h2 : Int) (st0 : RectangleProto),
        RectInstance.getArea (Rectangle w1 h1 st0).1
          (Rectangle w2 h2 (Rectangle w1 h1 st0).2).2 = some (w2 * h2)) ∧
    (∀ (w1 h1 w2 h2 : Int) (st0 : RectangleProto), w1 * h1 ≠ w2 * h2 →
        RectInstance.getArea (Rectangle w1 h1 st0).1
          (Rectangle w2 h2 (Rectangle w1 h1 st0).2).2 ≠ some (w1 * h1)) := by
  refine ⟨fun _ _ _ _ _ => rfl, fun w1 h1 w2 h2 st0 hne hc => ?_⟩
  have h2 : some (w2 * h2) = some (w1 * h1) := hc
  exact hne (Option.some.inj h2).symm

/-- C10 counterexample: a selector holding one class fragment (rank 3) chained
through combine keeps rank 3, and appending another class fragment - equal
rank - succeeds, raising neither error. -/
theorem C10_counterexample :
    (SelectorBuilder.combine (cssSelectorBuilder.element "div").2 "+"
        (cssSelectorBuilder.element "p").2 (cssSelectorBuilder.«class» "a").2).order =
      FragKind.«class».rank ∧
    (SelectorBuilder.«class» "b"
        (SelectorBuilder.combine (cssSelectorBuilder.element "div").2 "+"
          (cssSelectorBuilder.element "p").2 (cssSelectorBuilder.«class» "a").2)).1 = none :=
  ⟨rfl, rfl⟩

/-- C10 amended: chained combine overwrites the selector string with the
combined rendering and keeps the recorded rank; afterwards a strictly
lower-rank fragment raises the order error and an equal-rank unique fragment
raises the duplicate error, but an equal-rank repeatable fragment succeeds. -/
theorem C10_amended_chained_combine :
    (∀ (s s1 s2 : SelectorBuilder) (c : String),
        (SelectorBuilder.combine s1 c s2 s).selector =
          s1.stringify ++ " " ++ c ++ " " ++ s2.stringify ∧
        (SelectorBuilder.combine s1 c s2 s).order = s.order) ∧
    (∀ (s s1 s2 : SelectorBuilder) (c : String) (f : Frag),
        (f.kind.rank < s.order →
          (applyFrag f (SelectorBuilder.combine s1 c s2 s)).1 =
            some SelectorBuilder.wrongOrderProblem) ∧
        (f.kind.rank = s.order → uniqueRank f.kind.rank →
          (applyFrag f (SelectorBuilder.combine s1 c s2 s)).1 =
            some SelectorBuilder.uniquenessProblem) ∧
        (f.kind.rank = s.order → ¬ uniqueRank f.kind.rank →
          (applyFrag f (SelectorBuilder.combine s1 c s2 s)).1 = none)) := by
  refine ⟨fun s s1 s2 c => ⟨rfl, rfl⟩, fun s s1 s2 c f => ⟨?_, ?_, ?_⟩⟩
  · intro h
    rw [applyFrag_lt f (SelectorBuilder.combine s1 c s2 s) h]
  · intro heq hu
    rw [applyFrag_dup f (SelectorBuilder.combine s1 c s2 s) heq hu]
  · intro heq hu
    have hle : (SelectorBuilder.combine s1 c s2 s).order ≤ f.kind.rank :=
      le_of_eq heq.symm
    rw [applyFrag_ok f (SelectorBuilder.combine s1 c s2 s) hle (fun hx => hu hx.2)]
